import Mathlib

/-!
Verification of the coding-agent workflow core of the `echo_bridge` repository
(`ai_data_science_team`): the generic graph builder, the sandbox-execution,
fix, human-review and report nodes from `templates/agent_templates.py`, the
`DataCleaningAgent` facade from `agents/data_cleaning_agent.py`, and
`BaseAgentModern.run` from `agents/base_agent_modern.py`.

The Python code is shallowly embedded: workflow-state fields are `Option`
values (a `state.get(key)` that may yield Python `None` or find the key
missing becomes `Option.none`), Python dicts become association lists with
insert-overwrite semantics, and code that may raise an exception to its
caller returns `Except String α` (`Except.error` = an uncaught exception,
`Except.ok` = the value actually returned).
-/

set_option autoImplicit false

namespace EchoBridge

/-- A single-quote character, used to spell Python error messages. -/
def sq : String := String.singleton (Char.ofNat 39)

/-- Python scalar values as they occur in the workflow state mappings:
`None`, integers and strings. -/
inductive PyVal where
  | none
  | int (n : Int)
  | str (s : String)
  deriving DecidableEq, Repr

/-- Lookup in an association list, mirroring a Python dict read that
distinguishes a present key from an absent one (`d[k]` after `k in d`). -/
def lookupVar {α : Type} (vars : List (String × α)) (k : String) : Option α :=
  (vars.find? (fun p => p.1 == k)).map (fun p => p.2)

/-- `error_and_can_retry` from `create_coding_agent_graph`
(`templates/agent_templates.py`, lines 362-368): the state has an error,
both retry counters are present, and `retry_count < max_retries`.
The three arguments are the values of `state.get(error_key)`,
`state.get(retry_count_key)` and `state.get(max_retries_key)`. -/
def error_and_can_retry (error : Option String)
    (retry_count max_retries : Option Int) : Bool :=
  match error, retry_count, max_retries with
  | some _, some r, some m => decide (r < m)
  | _, _, _ => false

/-- C1: for every state, `error_and_can_retry` is true iff the error field is
non-null, both `retry_count` and `max_retries` are non-null, and
`retry_count < max_retries`; in particular it is false whenever
`retry_count = max_retries`, regardless of the error value. -/
theorem error_and_can_retry_iff :
    (∀ (e : Option String) (rc mr : Option Int),
      error_and_can_retry e rc mr = true ↔
        e ≠ Option.none ∧ rc ≠ Option.none ∧ mr ≠ Option.none ∧
          ∃ r m, rc = some r ∧ mr = some m ∧ r < m)
    ∧ ∀ (e : Option String) (m : Int),
        error_and_can_retry e (some m) (some m) = false := by
  constructor
  · intro e rc mr
    cases e <;> cases rc <;> cases mr <;>
      simp [error_and_can_retry]
  · intro e m
    cases e <;> simp [error_and_can_retry]

/-- The LangGraph terminal pseudo-node (`END`). -/
def END_NODE : String := "__end__"

/-- One conditional edge of a `StateGraph`, as added by
`workflow.add_conditional_edges(source, router, path_map)`: the router lambda
maps the state (here: its error and retry-counter fields) to a label, and the
path map sends that label to the destination node. -/
structure CondEdge where
  source : String
  router : Option String → Option Int → Option Int → String
  pathMap : List (String × String)

/-- The destination node a conditional edge selects on a given state. -/
def CondEdge.target (ce : CondEdge) (e : Option String)
    (rc mr : Option Int) : Option String :=
  lookupVar ce.pathMap (ce.router e rc mr)

/-- The graph structure accumulated by `StateGraph` before `compile`:
nodes, plain edges, the entry point, conditional edges, whether a
checkpointer was supplied, and the agent name. -/
structure Workflow where
  nodes : List String
  edges : List (String × String)
  entry : String
  condEdges : List CondEdge
  checkpointer : Bool
  agentName : String

/-- `create_coding_agent_graph` from `templates/agent_templates.py`
(lines 257-410), with the node functions elided (only the graph structure is
modelled) and a checkpointer represented by whether one was supplied.
Nodes and edges are recorded in the order the Python code adds them. -/
def create_coding_agent_graph
    (recommended_steps_node_name create_code_node_name
     execute_code_node_name fix_code_node_name explain_code_node_name : String)
    (human_in_the_loop : Bool) (human_review_node_name : String)
    (checkpointer : Bool)
    (bypass_recommended_steps bypass_explain_code : Bool)
    (agent_name : String) : Workflow :=
  let nodes0 := [create_code_node_name, execute_code_node_name, fix_code_node_name]
  let nodes1 := if !bypass_recommended_steps then
      nodes0 ++ [recommended_steps_node_name] else nodes0
  let nodes2 := if human_in_the_loop then
      nodes1 ++ [human_review_node_name] else nodes1
  let nodes3 := if !bypass_explain_code then
      nodes2 ++ [explain_code_node_name] else nodes2
  let entry := if bypass_recommended_steps then
      create_code_node_name else recommended_steps_node_name
  let edges0 := if !bypass_recommended_steps then
      [(recommended_steps_node_name, create_code_node_name)] else []
  let edges1 := edges0 ++
      [(create_code_node_name, execute_code_node_name),
       (fix_code_node_name, execute_code_node_name)]
  let condEdge : CondEdge :=
    if human_in_the_loop then
      { source := execute_code_node_name
        router := fun e rc mr =>
          if error_and_can_retry e rc mr then "fix_code" else "human_review"
        pathMap := [("human_review", human_review_node_name),
                    ("fix_code", fix_code_node_name)] }
    else if !bypass_explain_code then
      { source := execute_code_node_name
        router := fun e rc mr =>
          if error_and_can_retry e rc mr then "fix_code" else "explain_code"
        pathMap := [("fix_code", fix_code_node_name),
                    ("explain_code", explain_code_node_name)] }
    else
      { source := execute_code_node_name
        router := fun e rc mr =>
          if error_and_can_retry e rc mr then "fix_code" else "END"
        pathMap := [("fix_code", fix_code_node_name),
                    ("END", END_NODE)] }
  let edges2 := if !bypass_explain_code then
      edges1 ++ [(explain_code_node_name, END_NODE)] else edges1
  { nodes := nodes3, edges := edges2, entry := entry,
    condEdges := [condEdge], checkpointer := checkpointer,
    agentName := agent_name }

/-- C3: in every graph built by `create_coding_agent_graph`, the unique
conditional edge leaves the execute node; its router selects the fix label
exactly when `error_and_can_retry` holds; when the predicate holds the edge
targets the fix node (which forces `retry_count < max_retries`), and
otherwise it targets human review when enabled, else the explain/report node
when not bypassed, else the terminal state. -/
theorem create_coding_agent_graph_conditional_routing
    (rs cc ex fx expl hr an : String) (hitl cp brs bec : Bool) :
    ((create_coding_agent_graph rs cc ex fx expl hitl hr cp brs bec an).condEdges.map
        (fun ce => ce.source) = [ex])
    ∧ ∀ ce, ce ∈ (create_coding_agent_graph rs cc ex fx expl hitl hr cp brs bec an).condEdges →
        ∀ (e : Option String) (rc mr : Option Int),
          (ce.router e rc mr = "fix_code" ↔ error_and_can_retry e rc mr = true)
          ∧ (error_and_can_retry e rc mr = true →
              ce.target e rc mr = some fx ∧
                ∃ r m, rc = some r ∧ mr = some m ∧ r < m)
          ∧ (error_and_can_retry e rc mr = false →
              ce.target e rc mr =
                some (if hitl then hr
                      else if !bec then expl else END_NODE)) := by
  constructor
  · cases hitl <;> cases bec <;>
      simp [create_coding_agent_graph]
  · intro ce hce e rc mr
    have hcases :
        (ce.router e rc mr = "fix_code" ↔ error_and_can_retry e rc mr = true)
        ∧ (error_and_can_retry e rc mr = true → ce.target e rc mr = some fx)
        ∧ (error_and_can_retry e rc mr = false →
            ce.target e rc mr =
              some (if hitl then hr else if !bec then expl else END_NODE)) := by
      cases hitl <;> cases bec <;>
        simp only [create_coding_agent_graph, Bool.not_true, Bool.not_false,
          if_true, if_false, List.mem_singleton] at hce <;>
        subst hce <;>
        cases hcr : error_and_can_retry e rc mr <;>
          simp [CondEdge.target, lookupVar, hcr]
    refine ⟨hcases.1, fun h => ⟨hcases.2.1 h, ?_⟩, hcases.2.2⟩
    cases e <;> cases rc <;> cases mr <;>
      simp_all [error_and_can_retry]

/-- Witness for C3: a concrete graph (no human review, explain present) whose
single conditional edge routes a retryable error to the fix node and an
exhausted retry count to the explain/report node. -/
theorem create_coding_agent_graph_conditional_routing_witness :
    ∃ ce, ce ∈ (create_coding_agent_graph "rec" "cre" "exe" "fix" "exp"
        false "hr" false false false "agent").condEdges
      ∧ ce.target (some "boom") (some 0) (some 3) = some "fix"
      ∧ ce.target Option.none (some 3) (some 3) = some "exp" := by
  have hne : (create_coding_agent_graph "rec" "cre" "exe" "fix" "exp"
      false "hr" false false false "agent").condEdges ≠ [] := by
    simp [create_coding_agent_graph]
  refine ⟨_, List.head_mem hne, ?_, ?_⟩
  · exact (((create_coding_agent_graph_conditional_routing "rec" "cre" "exe"
      "fix" "exp" "hr" "agent" false false false false).2 _
      (List.head_mem hne) (some "boom") (some 0) (some 3)).2.1 (by decide)).1
  · have h := ((create_coding_agent_graph_conditional_routing "rec" "cre" "exe"
      "fix" "exp" "hr" "agent" false false false false).2 _
      (List.head_mem hne) Option.none (some 3) (some 3)).2.2 (by decide)
    simpa using h

/-- `make_data_cleaning_agent` from `agents/data_cleaning_agent.py`:
only the build-time flag handling and the final `create_coding_agent_graph`
call are modelled (the node functions, logging and prompts are elided).
A `checkpointer` argument of `true` means one was supplied. Returns the
workflow together with the list of warning lines printed while building. -/
def make_data_cleaning_agent (human_in_the_loop checkpointer
    bypass_recommended_steps bypass_explain_code : Bool) :
    Workflow × List String :=
  let cpForced := human_in_the_loop && !checkpointer
  let checkpointer1 := if cpForced then true else checkpointer
  let warnings1 : List String := if cpForced then
      ["Human in the loop is enabled. A checkpointer is required. Setting to MemorySaver()."]
    else []
  let bypassForced := bypass_recommended_steps && human_in_the_loop
  let bypass1 := if bypassForced then false else bypass_recommended_steps
  let warnings2 : List String := if bypassForced then
      ["Bypass recommended steps set to False to enable human in the loop."]
    else []
  (create_coding_agent_graph "recommend_cleaning_steps"
      "create_data_cleaner_code" "execute_data_cleaner_code"
      "fix_data_cleaner_code" "report_agent_outputs"
      human_in_the_loop "human_review" checkpointer1
      bypass1 bypass_explain_code "data_cleaning_agent",
    warnings1 ++ warnings2)

/-- C6: building the data-cleaning agent with `human_in_the_loop = true` and
`bypass_recommended_steps = true` forces the bypass flag to false and prints
the warning instead of raising; consequently, whenever human review is
enabled the compiled graph contains the recommend-steps node (and it is the
entry point). -/
theorem make_data_cleaning_agent_forces_recommend_steps :
    ∀ (cp bec : Bool),
      ("Bypass recommended steps set to False to enable human in the loop." ∈
          (make_data_cleaning_agent true cp true bec).2)
      ∧ ∀ (brs : Bool),
          "recommend_cleaning_steps" ∈
              (make_data_cleaning_agent true cp brs bec).1.nodes
          ∧ (make_data_cleaning_agent true cp brs bec).1.entry =
              "recommend_cleaning_steps" := by
  decide

/-- A binding in the namespace produced by `exec(agent_code, global_vars,
local_vars)`: either a callable (whose invocation may raise, modelled by
`Except.error` carrying `str(e)`) or a non-callable value. -/
inductive PyBinding (Tbl Res : Type) where
  | callable (f : Tbl → Except String Res)
  | notCallable

/-- The Python error message raised when the agent function cannot be
resolved in the executed snippet. -/
def missingFunctionMessage (agent_function_name : String) : String :=
  "Agent function " ++ sq ++ agent_function_name ++ sq ++
    " not found or not callable in the provided code."

/-- The try-block of `node_func_execute_agent_code_on_data`, with Python's
partial-assignment semantics kept: the source initializes `result = None`
before the try, then rebinds `result = agent_function(df)` and afterwards
`result = post_processing(result)` (the default branch instead converts a
DataFrame result to a dict; that conversion is folded into `Res`). An
exception leaves `result` at its latest completed binding, so a
post-processing failure keeps the agent function's return value. Returns
the final `(result, agent_error)` pair, `agent_error` carrying the raw
`str(e)` of the caught exception. -/
def runAgentTry {Tbl Res : Type} (f : Tbl → Except String Res) (df : Tbl)
    (post_processing : Option (Res → Except String Res)) :
    Option Res × Option String :=
  match f df with
  | .error e => (Option.none, some e)
  | .ok result =>
    match post_processing with
    | Option.none => (some result, Option.none)
    | some post =>
      match post result with
      | .ok result2 => (some result2, Option.none)
      | .error e => (some result, some e)

/-- `node_func_execute_agent_code_on_data` from
`templates/agent_templates.py` (lines 473-567), from the `exec` of the code
snippet onward (`df` is the already pre-processed input).
`execResult` is the outcome of `exec(agent_code, global_vars, local_vars)`:
`Except.error` when the snippet itself raises, otherwise the `local_vars`
namespace. The function returns `Except.error` when the node raises an
exception to its caller, and `Except.ok (result, error)` for the mapping
`{result_key: result, error_key: error}` it returns. Note that `exec`
failures and the resolution check (`raise ValueError(...)`) happen OUTSIDE
the try-block in the source, so they propagate as exceptions. -/
def node_func_execute_agent_code_on_data {Tbl Res : Type}
    (execResult : Except String (List (String × PyBinding Tbl Res)))
    (agent_function_name : String) (df : Tbl)
    (post_processing : Option (Res → Except String Res))
    (error_message_label : String) :
    Except String (Option Res × Option String) :=
  match execResult with
  | .error e => .error e
  | .ok local_vars =>
    match lookupVar local_vars agent_function_name with
    | Option.none => .error (missingFunctionMessage agent_function_name)
    | some PyBinding.notCallable => .error (missingFunctionMessage agent_function_name)
    | some (PyBinding.callable f) =>
      match runAgentTry f df post_processing with
      | (result, Option.none) => .ok (result, Option.none)
      | (result, some e) => .ok (result, some (error_message_label ++ e))

/-- C2 counterexample: two concrete violations of the claim. First, a
snippet that defines nothing (empty namespace) makes the execute node RAISE
`ValueError` to its caller instead of returning a mapping with the error
key set — the resolution check sits outside the try-block. Second, when the
agent function returns successfully and only the post-processing hook
raises, the returned mapping keeps the agent function's NON-null return
value under the result key alongside the error, because the exception
interrupts the `result = post_processing(result)` rebinding. -/
theorem node_func_execute_agent_code_on_data_counterexample :
    (@node_func_execute_agent_code_on_data Unit Unit
        (.ok []) "data_cleaner" () Option.none
        "An error occurred during data cleaning: "
      = .error (missingFunctionMessage "data_cleaner"))
    ∧ (@node_func_execute_agent_code_on_data Bool Bool
        (.ok [("data_cleaner", .callable (fun b => .ok b))])
        "data_cleaner" true
        (some (fun _ => .error "to_dict conversion failed"))
        "An error occurred during data cleaning: "
      = .ok (some true,
          some "An error occurred during data cleaning: to_dict conversion failed")) :=
  ⟨rfl, rfl⟩

/-- C2 (amended): exceptions raised inside the try block are caught and
returned in the mapping with the prefix-labelled exception text under the
error key — with a null result when the agent function itself raises, but
with the agent function's (non-null) return value retained under the
result key when only the post-processing hook raises; a successful
invocation yields a non-null result with a null error. A snippet that
raises in `exec`, or an agent-function name that is absent or bound to a
non-callable, raises to the caller instead of being reported in the
returned mapping. -/
theorem node_func_execute_agent_code_on_data_spec {Tbl Res : Type}
    (local_vars : List (String × PyBinding Tbl Res))
    (agent_function_name : String) (df : Tbl)
    (post_processing : Option (Res → Except String Res))
    (error_message_label : String) :
    (∀ f e, lookupVar local_vars agent_function_name = some (.callable f) →
        f df = .error e →
        node_func_execute_agent_code_on_data (.ok local_vars)
            agent_function_name df post_processing error_message_label
          = .ok (Option.none, some (error_message_label ++ e)))
    ∧ (∀ f r p e, lookupVar local_vars agent_function_name = some (.callable f) →
        f df = .ok r → post_processing = some p → p r = .error e →
        node_func_execute_agent_code_on_data (.ok local_vars)
            agent_function_name df post_processing error_message_label
          = .ok (some r, some (error_message_label ++ e)))
    ∧ (∀ f r, lookupVar local_vars agent_function_name = some (.callable f) →
        f df = .ok r → post_processing = Option.none →
        node_func_execute_agent_code_on_data (.ok local_vars)
            agent_function_name df post_processing error_message_label
          = .ok (some r, Option.none))
    ∧ (∀ f r p r2, lookupVar local_vars agent_function_name = some (.callable f) →
        f df = .ok r → post_processing = some p → p r = .ok r2 →
        node_func_execute_agent_code_on_data (.ok local_vars)
            agent_function_name df post_processing error_message_label
          = .ok (some r2, Option.none))
    ∧ ((∀ f, lookupVar local_vars agent_function_name ≠ some (.callable f)) →
        node_func_execute_agent_code_on_data (.ok local_vars)
            agent_function_name df post_processing error_message_label
          = .error (missingFunctionMessage agent_function_name))
    ∧ (∀ e, @node_func_execute_agent_code_on_data Tbl Res (.error e)
          agent_function_name df post_processing error_message_label
        = .error e) := by
  refine ⟨?_, ?_, ?_, ?_, ?_, ?_⟩
  · intro f e hf hrun
    simp [node_func_execute_agent_code_on_data, runAgentTry, hf, hrun]
  · intro f r p e hf hrun hpost hp
    subst hpost
    simp [node_func_execute_agent_code_on_data, runAgentTry, hf, hrun, hp]
  · intro f r hf hrun hpost
    subst hpost
    simp [node_func_execute_agent_code_on_data, runAgentTry, hf, hrun]
  · intro f r p r2 hf hrun hpost hp
    subst hpost
    simp [node_func_execute_agent_code_on_data, runAgentTry, hf, hrun, hp]
  · intro hf
    cases hlook : lookupVar local_vars agent_function_name with
    | none => simp [node_func_execute_agent_code_on_data, hlook]
    | some b =>
      cases b with
      | callable f => exact absurd hlook (hf f)
      | notCallable => simp [node_func_execute_agent_code_on_data, hlook]
  · intro e
    simp [node_func_execute_agent_code_on_data]

/-- Witness for C2 (amended): a namespace binding `data_cleaner` to a
function that raises on one input has the exception caught and prefixed in
the returned mapping with a null result; on an input it accepts, with a
post-processing hook that raises, the intermediate result is retained next
to the error; with a succeeding hook the result is non-null and the error
null. -/
theorem node_func_execute_agent_code_on_data_spec_witness :
    (@node_func_execute_agent_code_on_data Bool Bool
        (.ok [("data_cleaner",
          .callable (fun b => if b then .ok b else .error "division by zero"))])
        "data_cleaner" false (some (fun b => .ok b))
        "An error occurred during data cleaning: "
      = .ok (Option.none,
          some "An error occurred during data cleaning: division by zero"))
    ∧ (@node_func_execute_agent_code_on_data Bool Bool
        (.ok [("data_cleaner",
          .callable (fun b => if b then .ok b else .error "division by zero"))])
        "data_cleaner" true (some (fun _ => .error "bad encoding"))
        "An error occurred during data cleaning: "
      = .ok (some true,
          some "An error occurred during data cleaning: bad encoding"))
    ∧ (@node_func_execute_agent_code_on_data Bool Bool
        (.ok [("data_cleaner",
          .callable (fun b => if b then .ok b else .error "division by zero"))])
        "data_cleaner" true (some (fun b => .ok b))
        "An error occurred during data cleaning: "
      = .ok (some true, Option.none)) := by
  refine ⟨?_, ?_, ?_⟩
  · exact (node_func_execute_agent_code_on_data_spec _ "data_cleaner" false
      (some (fun b => .ok b)) "An error occurred during data cleaning: ").1 _
      "division by zero" rfl rfl
  · exact (node_func_execute_agent_code_on_data_spec _ "data_cleaner" true
      (some (fun _ => .error "bad encoding"))
      "An error occurred during data cleaning: ").2.1 _
      true _ "bad encoding" rfl rfl rfl rfl
  · exact (node_func_execute_agent_code_on_data_spec _ "data_cleaner" true
      (some (fun b => .ok b))
      "An error occurred during data cleaning: ").2.2.2.1 _
      true _ true rfl rfl rfl rfl

/-- `node_func_fix_agent_code` from `templates/agent_templates.py`
(lines 648-724). `llmResponse` is the text produced by
`(llm | PythonOutputParser()).invoke(prompt)` (the LLM collaborator is
opaque, so the response is a parameter); `relocate_imports` and
`add_comments` stand for `relocate_imports_inside_function` and
`add_comments_to_top agent_name` from `utils/regex.py` (a module outside
the provided sources). The node reads `state.get(retry_count_key)` and
computes `+ 1` on it: a missing/None
count makes the addition raise `TypeError` (modelled by `Except.error`);
otherwise it returns the dict literal with exactly the code-snippet, error
and retry-count keys. Logging to a file is elided. -/
def node_func_fix_agent_code
    (code_snippet_key error_key retry_count_key : String)
    (llmResponse : String)
    (relocate_imports add_comments : String → String)
    (retry_count : Option Int) :
    Except String (List (String × PyVal)) :=
  match retry_count with
  | Option.none =>
    .error ("unsupported operand type(s) for +: " ++ sq ++ "NoneType" ++ sq ++
      " and " ++ sq ++ "int" ++ sq)
  | some n =>
    .ok [(code_snippet_key, PyVal.str (add_comments (relocate_imports llmResponse))),
         (error_key, PyVal.none),
         (retry_count_key, PyVal.int (n + 1))]

/-- C4: when the fix node completes (retry count present, LLM collaborator
answered), the returned update clears the error key to null, sets the retry
count to exactly the prior count plus one, replaces the code-snippet key
with the normalized LLM response, and contains no other key. -/
theorem node_func_fix_agent_code_spec
    (csk ek rck : String) (resp : String)
    (rel addc : String → String) (n : Int)
    (h1 : csk ≠ ek) (h2 : csk ≠ rck) (h3 : ek ≠ rck) :
    ∃ upd, node_func_fix_agent_code csk ek rck resp rel addc (some n) = .ok upd
      ∧ lookupVar upd ek = some PyVal.none
      ∧ lookupVar upd rck = some (PyVal.int (n + 1))
      ∧ lookupVar upd csk = some (PyVal.str (addc (rel resp)))
      ∧ upd.map (fun p => p.1) = [csk, ek, rck] := by
  refine ⟨_, rfl, ?_, ?_, ?_, rfl⟩
  · simp [lookupVar, List.find?, beq_eq_false_iff_ne.mpr h1]
  · simp [lookupVar, List.find?, beq_eq_false_iff_ne.mpr h2,
      beq_eq_false_iff_ne.mpr h3]
  · simp [lookupVar, List.find?]

/-- Witness for C4: the fix-node update at concrete keys, with retry count 1
becoming 2, the error cleared and the code replaced. -/
theorem node_func_fix_agent_code_spec_witness :
    ∃ upd, node_func_fix_agent_code "data_cleaner_function"
        "data_cleaner_error" "retry_count" "def f(): pass"
        id id (some 1) = .ok upd
      ∧ lookupVar upd "data_cleaner_error" = some PyVal.none
      ∧ lookupVar upd "retry_count" = some (PyVal.int 2)
      ∧ lookupVar upd "data_cleaner_function" = some (PyVal.str "def f(): pass")
      ∧ upd.map (fun p => p.1) =
          ["data_cleaner_function", "data_cleaner_error", "retry_count"] := by
  have h := node_func_fix_agent_code_spec "data_cleaner_function"
    "data_cleaner_error" "retry_count" "def f(): pass" id id 1
    (by decide) (by decide) (by decide)
  simpa using h

/-- The whitespace characters Python `str.strip()` removes (ASCII range). -/
def isPySpace (c : Char) : Bool :=
  c == ' ' || c == '\t' || c == '\n' || c == '\r' || c == '\x0b' || c == '\x0c'

/-- Python `str.strip()`: drop leading and trailing whitespace. -/
def pyStrip (s : String) : String :=
  String.mk (((s.data.dropWhile isPySpace).reverse.dropWhile isPySpace).reverse)

/-- Python `str.lower()` (ASCII case mapping). -/
def pyLower (s : String) : String := String.mk (s.data.map Char.toLower)

/-- Python `input.strip().lower()`, the normalization the human-review node
applies to the reviewer response before comparing it with `"yes"`. -/
def pyStripLower (s : String) : String := pyLower (pyStrip s)

/-- A LangGraph `Command`: the node to go to next, plus the state update
(the human-review node only ever updates the user-instructions key). -/
structure GraphCommand where
  goto : String
  update : List (String × String)
  deriving DecidableEq, Repr

/-- `node_func_human_review` from `templates/agent_templates.py`
(lines 414-470). `user_input` is the value returned by `interrupt(...)` on
resume, `user_instructions` is `state.get(user_instructions_key)` and
`code_snippet` is `state.get(code_snippet_key)` (taken to be present: the
source would raise `TypeError` concatenating a missing snippet). -/
def node_func_human_review
    (user_input yes_goto no_goto user_instructions_key : String)
    (user_instructions : Option String)
    (code_snippet code_type : String) : GraphCommand :=
  let code_markdown := "```" ++ code_type ++ "\n" ++ code_snippet ++ "\n```"
  if pyStripLower user_input == "yes" then
    { goto := yes_goto, update := [] }
  else
    let modifications :=
      "User Has Requested Modifications To Previous Code: \n" ++ user_input
    match user_instructions with
    | Option.none =>
      { goto := no_goto,
        update := [(user_instructions_key,
          modifications ++ "\n\nPrevious Code:\n" ++ code_markdown)] }
    | some prior =>
      { goto := no_goto,
        update := [(user_instructions_key,
          prior ++ modifications ++ "\n\nPrevious Code:\n" ++ code_markdown)] }

/-- String concatenation is associative (helper for reasoning about the
accumulated user-instructions text). -/
theorem string_append_assoc (a b c : String) : a ++ b ++ c = a ++ (b ++ c) := by
  rcases a with ⟨a⟩; rcases b with ⟨b⟩; rcases c with ⟨c⟩
  show String.mk (a ++ b ++ c) = String.mk (a ++ (b ++ c))
  rw [List.append_assoc]

/-- The empty string is a left identity for concatenation. -/
theorem string_empty_append (a : String) : "" ++ a = a := by
  rcases a with ⟨a⟩; rfl

/-- C5: on resume, an input equal to `"yes"` after trimming and lowercasing
routes to the accept target with an empty update; any other input routes to
the revision target, and the new user-instructions value is the prior value
(empty when the prior was null) followed by a modification note that
contains both the reviewer input and the rejected code. -/
theorem node_func_human_review_spec
    (input yes_goto no_goto uik : String) (ui : Option String)
    (code ct : String) :
    (pyStripLower input = "yes" →
      node_func_human_review input yes_goto no_goto uik ui code ct =
        { goto := yes_goto, update := [] })
    ∧ (pyStripLower input ≠ "yes" →
      ∃ note,
        node_func_human_review input yes_goto no_goto uik ui code ct =
          { goto := no_goto, update := [(uik, ui.getD "" ++ note)] }
        ∧ (∃ a b, note = a ++ input ++ b)
        ∧ (∃ a b, note = a ++ code ++ b)) := by
  constructor
  · intro h
    simp [node_func_human_review, h]
  · intro h
    refine ⟨"User Has Requested Modifications To Previous Code: \n" ++ input ++
      "\n\nPrevious Code:\n" ++ ("```" ++ ct ++ "\n" ++ code ++ "\n```"),
      ?_, ?_, ?_⟩
    · cases ui with
      | none =>
        simp only [node_func_human_review, beq_eq_false_iff_ne.mpr h,
          Bool.false_eq_true, if_false, Option.getD_none]
        rw [string_empty_append]
      | some prior =>
        simp only [node_func_human_review, beq_eq_false_iff_ne.mpr h,
          Bool.false_eq_true, if_false, Option.getD_some]
        simp only [string_append_assoc]
    · exact ⟨"User Has Requested Modifications To Previous Code: \n",
        "\n\nPrevious Code:\n" ++ ("```" ++ ct ++ "\n" ++ code ++ "\n```"),
        by simp only [string_append_assoc]⟩
    · exact ⟨"User Has Requested Modifications To Previous Code: \n" ++ input ++
        "\n\nPrevious Code:\n" ++ ("```" ++ ct ++ "\n"), "\n```",
        by simp only [string_append_assoc]⟩

/-- Witness for C5: an (uppercase, padded) acceptance routes to the accept
target with no update, and a revision request appends a note containing the
reviewer feedback after the prior instructions. -/
theorem node_func_human_review_spec_witness :
    (node_func_human_review "  YES  " "accept_node" "revise_node"
        "user_instructions" (some "original instructions") "the code" "python"
      = { goto := "accept_node", update := [] })
    ∧ ∃ note,
        node_func_human_review "please remove duplicates" "accept_node"
            "revise_node" "user_instructions" (some "original instructions")
            "the code" "python"
          = { goto := "revise_node",
              update := [("user_instructions",
                "original instructions" ++ note)] }
        ∧ ∃ a b, note = a ++ "please remove duplicates" ++ b := by
  constructor
  · exact (node_func_human_review_spec "  YES  " "accept_node" "revise_node"
      "user_instructions" (some "original instructions") "the code"
      "python").1 (by decide)
  · obtain ⟨note, h1, h2, _⟩ := (node_func_human_review_spec
      "please remove duplicates" "accept_node" "revise_node"
      "user_instructions" (some "original instructions") "the code"
      "python").2 (by decide)
    exact ⟨note, by simpa using h1, h2⟩

/-- Python dict assignment `d[k] = v`: overwrite in place when the key is
present (keeping insertion order), otherwise append at the end. -/
def dictInsert (d : List (String × PyVal)) (k : String) (v : PyVal) :
    List (String × PyVal) :=
  if d.any (fun p => p.1 == k) then
    d.map (fun p => if p.1 == k then (k, v) else p)
  else d ++ [(k, v)]

/-- Python `state.get(key, default)`. -/
def stateGet (state : List (String × PyVal)) (k : String) (dflt : PyVal) :
    PyVal :=
  match lookupVar state k with
  | some v => v
  | Option.none => dflt

/-- An `AIMessage` as built by the report node: its content is the
`final_report` dict (serialized with `json.dumps` in the source; the JSON
object is modelled by the key-value list itself) plus the role. -/
structure ReportMessage where
  content : List (String × PyVal)
  role : String
  deriving DecidableEq, Repr

/-- `node_func_report_agent_outputs` from `templates/agent_templates.py`
(lines 795-837): start the report dict from the title entry, insert
`state.get(key, "<key_not_found_in_state>")` for each requested key, wrap
it into a single message under `result_key`. -/
def node_func_report_agent_outputs
    (state : List (String × PyVal)) (keys_to_include : List String)
    (result_key role custom_title : String) :
    List (String × List ReportMessage) :=
  let final_report := keys_to_include.foldl
    (fun report key => dictInsert report key
      (stateGet state key (PyVal.str ("<" ++ key ++ "_not_found_in_state>"))))
    [("report_title", PyVal.str custom_title)]
  [(result_key, [{ content := final_report, role := role }])]

theorem find?_overwrite_of_ne (d : List (String × PyVal)) (k k' : String)
    (v : PyVal) (h : k' ≠ k) :
    (d.map (fun p => if p.1 == k then (k, v) else p)).find?
        (fun p => p.1 == k')
      = d.find? (fun p => p.1 == k') := by
  induction d with
  | nil => rfl
  | cons p rest ih =>
    by_cases hp : p.1 = k
    · have hpk : (p.1 == k) = true := beq_iff_eq.mpr hp
      have hpk' : (p.1 == k') = false :=
        beq_eq_false_iff_ne.mpr (by rw [hp]; exact fun he => h he.symm)
      have hkk' : (k == k') = false :=
        beq_eq_false_iff_ne.mpr (fun he => h he.symm)
      simp only [List.map_cons, hpk, if_true, List.find?, hkk', hpk']
      exact ih
    · have hpk : (p.1 == k) = false := beq_eq_false_iff_ne.mpr hp
      simp only [List.map_cons, hpk, Bool.false_eq_true, if_false, List.find?]
      cases hpk' : (p.1 == k')
      · exact ih
      · rfl

theorem find?_overwrite_self (d : List (String × PyVal)) (k : String)
    (v : PyVal) (h : d.any (fun p => p.1 == k) = true) :
    (d.map (fun p => if p.1 == k then (k, v) else p)).find?
        (fun p => p.1 == k)
      = some (k, v) := by
  induction d with
  | nil => simp at h
  | cons p rest ih =>
    by_cases hp : p.1 = k
    · have hpk : (p.1 == k) = true := beq_iff_eq.mpr hp
      simp [List.map_cons, hpk, List.find?]
    · have hpk : (p.1 == k) = false := beq_eq_false_iff_ne.mpr hp
      simp only [List.any_cons, hpk, Bool.false_or] at h
      simp only [List.map_cons, hpk, Bool.false_eq_true, if_false,
        List.find?, hpk]
      exact ih h

theorem find?_append_none (d tail : List (String × PyVal)) (k : String)
    (h : d.any (fun p => p.1 == k) = false) :
    (d ++ tail).find? (fun p => p.1 == k) = tail.find? (fun p => p.1 == k) := by
  induction d with
  | nil => rfl
  | cons p rest ih =>
    simp only [List.any_cons, Bool.or_eq_false_iff] at h
    simp only [List.cons_append, List.find?, h.1]
    exact ih h.2

theorem lookupVar_dictInsert_self (d : List (String × PyVal)) (k : String)
    (v : PyVal) : lookupVar (dictInsert d k v) k = some v := by
  unfold dictInsert
  cases hany : d.any (fun p => p.1 == k)
  · simp only [Bool.false_eq_true, if_false, lookupVar,
      find?_append_none d [(k, v)] k hany, List.find?, beq_self_eq_true]
    rfl
  · simp only [if_true, lookupVar, find?_overwrite_self d k v hany]
    rfl

theorem lookupVar_dictInsert_other (d : List (String × PyVal))
    (k k' : String) (v : PyVal) (h : k' ≠ k) :
    lookupVar (dictInsert d k v) k' = lookupVar d k' := by
  unfold dictInsert
  have hkk' : (k == k') = false := beq_eq_false_iff_ne.mpr (fun he => h he.symm)
  cases hany : d.any (fun p => p.1 == k)
  · simp only [Bool.false_eq_true, if_false, lookupVar]
    induction d with
    | nil => simp [List.find?, hkk']
    | cons p rest ih =>
      simp only [List.any_cons, Bool.or_eq_false_iff] at hany
      simp only [List.cons_append, List.find?]
      cases hpk' : (p.1 == k')
      · exact ih hany.2
      · rfl
  · simp only [if_true, lookupVar, find?_overwrite_of_ne d k k' v h]

/-- Lookup after folding `dictInsert` over a key list, where the inserted
value depends only on the key: a key in the list gets its value, any other
key keeps its prior binding. -/
theorem lookupVar_foldl_dictInsert (keys : List String)
    (val : String → PyVal) (d : List (String × PyVal)) (k : String) :
    lookupVar (keys.foldl (fun r key => dictInsert r key (val key)) d) k
      = if k ∈ keys then some (val k) else lookupVar d k := by
  induction keys generalizing d with
  | nil => simp
  | cons key rest ih =>
    simp only [List.foldl_cons, ih, List.mem_cons]
    by_cases hk : k ∈ rest
    · simp [hk]
    · by_cases hkey : k = key
      · subst hkey
        simp [hk, lookupVar_dictInsert_self]
      · simp [hk, hkey, lookupVar_dictInsert_other d key k (val key) hkey]

/-- C7 counterexample: requesting the reserved key `"report_title"` itself
(with a state that lacks it) makes the dict insertion overwrite the title
entry, so the produced report carries the sentinel
`"<report_title_not_found_in_state>"` and the given title
`"Agent Output Summary"` appears nowhere in the message. -/
theorem node_func_report_agent_outputs_title_shadowed :
    node_func_report_agent_outputs [] ["report_title"] "messages" "agent"
        "Agent Output Summary"
      = [("messages",
          [{ content := [("report_title",
               PyVal.str "<report_title_not_found_in_state>")],
             role := "agent" }])] := by
  decide

/-- C7 (amended): the report node returns, without raising, exactly one
structured message under the result key; its content holds the given title
under `report_title` PROVIDED `"report_title"` is not itself a requested
key (a requested key of that name overwrites the title), holds for every
requested key the state value or the sentinel
`"<key_not_found_in_state>"`, and holds nothing for keys outside the
request list. -/
theorem node_func_report_agent_outputs_spec
    (state : List (String × PyVal)) (keys : List String)
    (result_key role title : String) :
    ∃ msg, node_func_report_agent_outputs state keys result_key role title
        = [(result_key, [msg])]
      ∧ msg.role = role
      ∧ ("report_title" ∉ keys →
          lookupVar msg.content "report_title" = some (PyVal.str title))
      ∧ (∀ k, k ∈ keys →
          lookupVar msg.content k
            = some (stateGet state k
                (PyVal.str ("<" ++ k ++ "_not_found_in_state>"))))
      ∧ (∀ k, k ∉ keys → k ≠ "report_title" →
          lookupVar msg.content k = Option.none) := by
  refine ⟨_, rfl, rfl, ?_, ?_, ?_⟩
  · intro h
    simp only [lookupVar_foldl_dictInsert, h, if_false]
    simp [lookupVar, List.find?]
  · intro k hk
    simp only [lookupVar_foldl_dictInsert, hk, if_true]
  · intro k hk hkt
    simp only [lookupVar_foldl_dictInsert, hk, if_false]
    simp [lookupVar, List.find?, beq_eq_false_iff_ne.mpr (Ne.symm hkt)]

/-- Witness for C7 (amended): a concrete report with one present key, one
missing key (sentinel substituted), the title retained, and an unrequested
key absent. -/
theorem node_func_report_agent_outputs_spec_witness :
    ∃ msg, node_func_report_agent_outputs
        [("recommended_steps", PyVal.str "impute missing values")]
        ["recommended_steps", "data_cleaner_error"] "messages"
        "data_cleaning_agent" "Data Cleaning Agent Outputs"
      = [("messages", [msg])]
      ∧ lookupVar msg.content "report_title"
          = some (PyVal.str "Data Cleaning Agent Outputs")
      ∧ lookupVar msg.content "recommended_steps"
          = some (PyVal.str "impute missing values")
      ∧ lookupVar msg.content "data_cleaner_error"
          = some (PyVal.str "<data_cleaner_error_not_found_in_state>")
      ∧ lookupVar msg.content "data_raw" = Option.none := by
  obtain ⟨msg, h1, _, h3, h4, h5⟩ := node_func_report_agent_outputs_spec
    [("recommended_steps", PyVal.str "impute missing values")]
    ["recommended_steps", "data_cleaner_error"] "messages"
    "data_cleaning_agent" "Data Cleaning Agent Outputs"
  refine ⟨msg, h1, h3 (by decide), ?_, ?_,
    h5 "data_raw" (by decide) (by decide)⟩
  · have h := h4 "recommended_steps" (by decide)
    simpa [stateGet, lookupVar, List.find?] using h
  · have h := h4 "data_cleaner_error" (by decide)
    simpa [stateGet, lookupVar, List.find?] using h

/-- Modelled from the spec: the in-memory table of the external table engine
(pandas is not part of the provided sources). Per the spec, the storage
encoding is a "mapping of column name → ordered value sequence"; a table is
its column names together with one value sequence per column, where a cell
is an integer or null. -/
structure Table where
  cols : List String
  colData : List (List (Option Int))
  deriving DecidableEq, Repr

/-- Modelled from the spec: the post-processing hook / caller-side
`df.to_dict()` conversion — encode a table as the mapping of column name to
its ordered value sequence. -/
def table_to_dict (t : Table) : List (String × List (Option Int)) :=
  t.cols.zip t.colData

/-- Modelled from the spec: the pre-processing hook
`pd.DataFrame.from_dict(data)` — rebuild the table from the storage
encoding, keeping column order and row order. -/
def dataframe_from_dict (d : List (String × List (Option Int))) : Table :=
  { cols := d.map (fun p => p.1), colData := d.map (fun p => p.2) }

/-- C8: encoding a table to the storage representation and decoding it back
yields an equal table (same columns, same values, same order), for every
table whose column list and data list are aligned. -/
theorem table_round_trip (t : Table)
    (h : t.cols.length = t.colData.length) :
    dataframe_from_dict (table_to_dict t) = t := by
  rcases t with ⟨cols, colData⟩
  simp only [dataframe_from_dict, table_to_dict, Table.mk.injEq]
  exact ⟨List.map_fst_zip cols colData (le_of_eq h),
    List.map_snd_zip cols colData (ge_of_eq h)⟩

/-- Witness for C8: the round trip on an empty table, a single-row table, a
single-column table and a table containing null entries. -/
theorem table_round_trip_witness :
    (dataframe_from_dict (table_to_dict { cols := [], colData := [] })
        = { cols := [], colData := [] })
    ∧ (dataframe_from_dict (table_to_dict
          { cols := ["a", "b"], colData := [[some 1], [some 2]] })
        = { cols := ["a", "b"], colData := [[some 1], [some 2]] })
    ∧ (dataframe_from_dict (table_to_dict
          { cols := ["a"], colData := [[some 1, some 2, some 3]] })
        = { cols := ["a"], colData := [[some 1, some 2, some 3]] })
    ∧ (dataframe_from_dict (table_to_dict
          { cols := ["a"], colData := [[some 1, Option.none, some 3]] })
        = { cols := ["a"], colData := [[some 1, Option.none, some 3]] }) :=
  ⟨table_round_trip { cols := [], colData := [] } rfl,
   table_round_trip { cols := ["a", "b"], colData := [[some 1], [some 2]] } rfl,
   table_round_trip { cols := ["a"], colData := [[some 1, some 2, some 3]] } rfl,
   table_round_trip
     { cols := ["a"], colData := [[some 1, Option.none, some 3]] } rfl⟩

/-- Python truthiness of a `PyVal`, used when a stored construction
parameter is read back as a flag. -/
def pyTruthy : PyVal → Bool
  | PyVal.none => false
  | PyVal.int n => decide (n ≠ 0)
  | PyVal.str s => decide (s ≠ "")

/-- `DataCleaningAgent._make_compiled_graph` from
`agents/data_cleaning_agent.py` (lines 200-210): reset `response` to `None`
and rebuild via `make_data_cleaning_agent(**self._params)`. Here the
graph-shaping flags are read out of the stored parameter dict. -/
def dataCleaningMakeCompiledGraph (params : List (String × PyVal)) :
    Workflow :=
  (make_data_cleaning_agent
    (pyTruthy (stateGet params "human_in_the_loop" PyVal.none))
    (pyTruthy (stateGet params "checkpointer" PyVal.none))
    (pyTruthy (stateGet params "bypass_recommended_steps" PyVal.none))
    (pyTruthy (stateGet params "bypass_explain_code" PyVal.none))).1

/-- The `DataCleaningAgent` facade state: stored construction parameters,
the compiled graph, and the last run result. -/
structure DataCleaningAgentFacade where
  params : List (String × PyVal)
  compiledGraph : Workflow
  response : Option PyVal

/-- Python `dict.update(kwargs)`: insert every override in order,
overwriting existing keys. -/
def dict_update (d kwargs : List (String × PyVal)) :
    List (String × PyVal) :=
  kwargs.foldl (fun d p => dictInsert d p.1 p.2) d

/-- `BaseAgent.update_params` from `templates/agent_templates.py`
(lines 65-73), as inherited by `DataCleaningAgent`: merge the overrides into
`_params`, then rebuild the compiled graph via `_make_compiled_graph`
(which resets `response` to `None` before building). -/
def update_params (a : DataCleaningAgentFacade)
    (kwargs : List (String × PyVal)) : DataCleaningAgentFacade :=
  let ps := dict_update a.params kwargs
  { params := ps,
    compiledGraph := dataCleaningMakeCompiledGraph ps,
    response := Option.none }

theorem lookupVar_dict_update_not_mem (d kwargs : List (String × PyVal))
    (k : String) (h : k ∉ kwargs.map (fun p => p.1)) :
    lookupVar (dict_update d kwargs) k = lookupVar d k := by
  induction kwargs generalizing d with
  | nil => rfl
  | cons p rest ih =>
    simp only [List.map_cons, List.mem_cons, not_or] at h
    simp only [dict_update, List.foldl_cons]
    rw [show rest.foldl (fun d p => dictInsert d p.1 p.2)
        (dictInsert d p.1 p.2) = dict_update (dictInsert d p.1 p.2) rest
      from rfl]
    rw [ih (dictInsert d p.1 p.2) h.2]
    exact lookupVar_dictInsert_other d p.1 k p.2 h.1

theorem lookupVar_dict_update_mem (d kwargs : List (String × PyVal))
    (k : String) (v : PyVal)
    (hnd : (kwargs.map (fun p => p.1)).Nodup) (hmem : (k, v) ∈ kwargs) :
    lookupVar (dict_update d kwargs) k = some v := by
  induction kwargs generalizing d with
  | nil => simp at hmem
  | cons p rest ih =>
    simp only [List.map_cons, List.nodup_cons] at hnd
    simp only [dict_update, List.foldl_cons]
    rw [show rest.foldl (fun d p => dictInsert d p.1 p.2)
        (dictInsert d p.1 p.2) = dict_update (dictInsert d p.1 p.2) rest
      from rfl]
    rcases List.mem_cons.mp hmem with heq | hrest
    · rcases p with ⟨pk, pv⟩
      obtain ⟨hk, hv⟩ : k = pk ∧ v = pv := by
        simpa [Prod.ext_iff] using heq
      subst hk; subst hv
      have hnotin : k ∉ rest.map (fun q => q.1) := hnd.1
      rw [lookupVar_dict_update_not_mem (dictInsert d k v) rest k hnotin]
      exact lookupVar_dictInsert_self d k v
    · exact ih (dictInsert d p.1 p.2) hnd.2 hrest

/-- C9: `update_params` merges the overrides into the stored construction
parameters (overridden keys take the new value, untouched keys keep the
old), rebuilds the compiled graph from the merged parameters, and leaves
the stored response null. -/
theorem update_params_spec (a : DataCleaningAgentFacade)
    (kwargs : List (String × PyVal)) :
    ((update_params a kwargs).response = Option.none)
    ∧ ((update_params a kwargs).params = dict_update a.params kwargs)
    ∧ ((update_params a kwargs).compiledGraph
        = dataCleaningMakeCompiledGraph (dict_update a.params kwargs))
    ∧ (∀ k, k ∉ kwargs.map (fun p => p.1) →
        lookupVar (update_params a kwargs).params k = lookupVar a.params k)
    ∧ (∀ k v, (kwargs.map (fun p => p.1)).Nodup → (k, v) ∈ kwargs →
        lookupVar (update_params a kwargs).params k = some v) := by
  refine ⟨rfl, rfl, rfl, ?_, ?_⟩
  · intro k hk
    exact lookupVar_dict_update_not_mem a.params kwargs k hk
  · intro k v hnd hmem
    exact lookupVar_dict_update_mem a.params kwargs k v hnd hmem

/-- Witness for C9: overriding one parameter resets the response to null,
updates that key, and keeps an untouched key. -/
theorem update_params_spec_witness :
    ((update_params
        { params := [("human_in_the_loop", PyVal.int 0),
                     ("n_samples", PyVal.int 30)],
          compiledGraph := dataCleaningMakeCompiledGraph [],
          response := some (PyVal.str "old run") }
        [("n_samples", PyVal.int 50)]).response = Option.none)
    ∧ (lookupVar (update_params
        { params := [("human_in_the_loop", PyVal.int 0),
                     ("n_samples", PyVal.int 30)],
          compiledGraph := dataCleaningMakeCompiledGraph [],
          response := some (PyVal.str "old run") }
        [("n_samples", PyVal.int 50)]).params "n_samples"
        = some (PyVal.int 50))
    ∧ (lookupVar (update_params
        { params := [("human_in_the_loop", PyVal.int 0),
                     ("n_samples", PyVal.int 30)],
          compiledGraph := dataCleaningMakeCompiledGraph [],
          response := some (PyVal.str "old run") }
        [("n_samples", PyVal.int 50)]).params "human_in_the_loop"
        = some (PyVal.int 0)) := by
  have h := update_params_spec
    { params := [("human_in_the_loop", PyVal.int 0),
                 ("n_samples", PyVal.int 30)],
      compiledGraph := dataCleaningMakeCompiledGraph [],
      response := some (PyVal.str "old run") }
    [("n_samples", PyVal.int 50)]
  refine ⟨h.1, h.2.2.2.2 "n_samples" (PyVal.int 50) (by decide) (by decide), ?_⟩
  have h4 := h.2.2.2.1 "human_in_the_loop" (by decide)
  rw [h4]
  decide

/-- A value in the dictionary `BaseAgentModern.run` returns: either a string
field or the results mapping produced by the subclass `execute`. -/
inductive RunVal (Results : Type) where
  | str (s : String)
  | results (r : Results)

/-- The error dictionary `BaseAgentModern.run` builds in its
`except Exception` handler. -/
def runErrorDict {Results : Type} (agentName e timestamp : String) :
    List (String × RunVal Results) :=
  [("status", RunVal.str "error"),
   ("agent", RunVal.str agentName),
   ("error", RunVal.str e),
   ("timestamp", RunVal.str timestamp)]

/-- The success dictionary `BaseAgentModern.run` returns. -/
def runSuccessDict {Results : Type} (agentName : String) (r : Results)
    (notebook_path timestamp : String) : List (String × RunVal Results) :=
  [("status", RunVal.str "success"),
   ("agent", RunVal.str agentName),
   ("results", RunVal.results r),
   ("notebook_path", RunVal.str notebook_path),
   ("timestamp", RunVal.str timestamp)]

/-- `BaseAgentModern.run` from `agents/base_agent_modern.py`
(lines 99-149). `data` is `Option`-valued (`None` input), the abstract
subclass `execute` and the notebook generation are fallible collaborators
(`Except.error` carries `str(e)` of the exception they raise), and
`timestamp` stands for `datetime.now().isoformat()`. The whole body sits in
one try/except, so every raised exception becomes the error dictionary and
nothing propagates. -/
def baseAgentModernRun {Data Results : Type} (agentName : String)
    (execute : Data → Except String Results)
    (generate_notebook : Results → Except String String)
    (timestamp : String) (data : Option Data) :
    List (String × RunVal Results) :=
  match data with
  | Option.none => runErrorDict agentName "Input data cannot be None" timestamp
  | some d =>
    match execute d with
    | .error e => runErrorDict agentName e timestamp
    | .ok r =>
      match generate_notebook r with
      | .error e => runErrorDict agentName e timestamp
      | .ok notebook_path =>
          runSuccessDict agentName r notebook_path timestamp

/-- C10: `run` always returns a dictionary (never propagates): a `None`
input yields the error dictionary with message
`"Input data cannot be None"`; an `execute` or notebook-generation failure
yields the error dictionary carrying that exception text; otherwise it
yields the success dictionary with the execute results under `"results"`
and a notebook path; and the status field is always exactly `"success"` or
`"error"`. -/
theorem baseAgentModernRun_spec {Data Results : Type} (agentName : String)
    (execute : Data → Except String Results)
    (generate_notebook : Results → Except String String)
    (timestamp : String) (data : Option Data) :
    (data = Option.none →
      baseAgentModernRun agentName execute generate_notebook timestamp data
        = runErrorDict agentName "Input data cannot be None" timestamp)
    ∧ (∀ d e, data = some d → execute d = .error e →
        baseAgentModernRun agentName execute generate_notebook timestamp data
          = runErrorDict agentName e timestamp)
    ∧ (∀ d r e, data = some d → execute d = .ok r →
        generate_notebook r = .error e →
        baseAgentModernRun agentName execute generate_notebook timestamp data
          = runErrorDict agentName e timestamp)
    ∧ (∀ d r p, data = some d → execute d = .ok r →
        generate_notebook r = .ok p →
        baseAgentModernRun agentName execute generate_notebook timestamp data
          = runSuccessDict agentName r p timestamp
        ∧ lookupVar (baseAgentModernRun agentName execute generate_notebook
            timestamp data) "results" = some (RunVal.results r)
        ∧ lookupVar (baseAgentModernRun agentName execute generate_notebook
            timestamp data) "notebook_path" = some (RunVal.str p))
    ∧ (lookupVar (baseAgentModernRun agentName execute generate_notebook
          timestamp data) "status" = some (RunVal.str "success")
        ∨ lookupVar (baseAgentModernRun agentName execute generate_notebook
          timestamp data) "status" = some (RunVal.str "error")) := by
  refine ⟨?_, ?_, ?_, ?_, ?_⟩
  · intro h
    rw [h]
    rfl
  · intro d e hd he
    simp [baseAgentModernRun, hd, he]
  · intro d r e hd hr he
    simp [baseAgentModernRun, hd, hr, he]
  · intro d r p hd hr hp
    refine ⟨by simp [baseAgentModernRun, hd, hr, hp], ?_, ?_⟩ <;>
      simp [baseAgentModernRun, hd, hr, hp, runSuccessDict, lookupVar,
        List.find?]
  · cases data with
    | none => right; rfl
    | some d =>
      cases he : execute d with
      | error e => right; simp [baseAgentModernRun, he, runErrorDict,
          lookupVar, List.find?]
      | ok r =>
        cases hg : generate_notebook r with
        | error e => right; simp [baseAgentModernRun, he, hg, runErrorDict,
            lookupVar, List.find?]
        | ok p => left; simp [baseAgentModernRun, he, hg, runSuccessDict,
            lookupVar, List.find?]

/-- Witness for C10: a concrete run where `execute` raises produces the
error dictionary with the exception text, and a `None` input produces the
dedicated validation message. -/
theorem baseAgentModernRun_spec_witness :
    (@baseAgentModernRun Bool Bool "MyAgent"
        (fun _ => .error "division by zero") (fun _ => .ok "nb.py")
        "2026-10-12" (some true)
      = runErrorDict "MyAgent" "division by zero" "2026-10-12")
    ∧ (@baseAgentModernRun Bool Bool "MyAgent"
        (fun _ => .error "division by zero") (fun _ => .ok "nb.py")
        "2026-10-12" Option.none
      = runErrorDict "MyAgent" "Input data cannot be None" "2026-10-12")
    ∧ (@baseAgentModernRun Bool Bool "MyAgent"
        (fun b => .ok b) (fun _ => .ok "nb.py") "2026-10-12" (some true)
      = runSuccessDict "MyAgent" true "nb.py" "2026-10-12") := by
  refine ⟨?_, ?_, ?_⟩
  · exact (baseAgentModernRun_spec "MyAgent"
      (fun _ => .error "division by zero") (fun _ => .ok "nb.py")
      "2026-10-12" (some true)).2.1 true "division by zero" rfl rfl
  · exact (baseAgentModernRun_spec "MyAgent"
      (fun _ => .error "division by zero") (fun _ => .ok "nb.py")
      "2026-10-12" Option.none).1 rfl
  · exact ((baseAgentModernRun_spec "MyAgent" (fun b => .ok b)
      (fun _ => .ok "nb.py") "2026-10-12" (some true)).2.2.2.1 true true
      "nb.py" rfl rfl rfl).1

end EchoBridge
